import Mathlib

/-!
Shallow embedding of `src/email/message/command/read.rs` (the "read message"
command of the himalaya mail client) and proofs about it.

Strings are modelled as `List Char`; all the separators and joins involved are
ASCII, so byte offsets in the Rust source and character offsets here order
occurrences identically and split at the same content boundaries.
-/

/-- Strings of the Rust source, modelled as lists of characters. -/
abbrev Str := List Char

/-- `startsWithL pat s` holds when `pat` is an initial segment of `s`
(model of a substring match attempt at the current position). -/
def startsWithL : Str → Str → Bool
  | [], _ => true
  | _ :: _, [] => false
  | p :: ps, c :: cs => p == c && startsWithL ps cs

/-- Model of Rust `str::find(pattern)`: index of the first occurrence of
`pat` as a contiguous substring of `s`, if any. -/
def findSub (pat : Str) : Str → Option Nat
  | [] => if startsWithL pat [] then some 0 else none
  | c :: cs =>
    if startsWithL pat (c :: cs) then some 0
    else (findSub pat cs).map (· + 1)

/-- Model of Rust `Vec::join(sep)`, tail part: each remaining element is
preceded by the separator. -/
def joinStrAux (sep : Str) : List Str → Str
  | [] => []
  | x :: xs => sep ++ x ++ joinStrAux sep xs

/-- Model of Rust `Vec::join(sep)`: elements joined by `sep`, with no leading,
trailing or doubled separator. -/
def joinStr (sep : Str) : List Str → Str
  | [] => []
  | x :: xs => x ++ joinStrAux sep xs

/-- Embedding of `extract_body_from_template` (read.rs lines 229-239):
look for `"\n\n"` first; only if absent, look for `"\r\n\r\n"`; if neither
occurs, return the whole template. The body starts strictly after the
separator found. -/
def extract_body_from_template (tpl : Str) : Str :=
  match findSub ("\n\n".toList) tpl with
  | some pos => tpl.drop (pos + 2)
  | none =>
    match findSub ("\r\n\r\n".toList) tpl with
    | some pos => tpl.drop (pos + 4)
    | none => tpl

/-- Written from the claim C1's words: the separator (`"\n\n"` or
`"\r\n\r\n"`) occurring at the lowest offset determines the split point, the
body being the substring strictly after it; whole template when neither
occurs. -/
def extractBodyLowestOffset (tpl : Str) : Str :=
  match findSub ("\n\n".toList) tpl, findSub ("\r\n\r\n".toList) tpl with
  | some p, some q =>
    if p ≤ q then tpl.drop (p + 2) else tpl.drop (q + 4)
  | some p, none => tpl.drop (p + 2)
  | none, some q => tpl.drop (q + 4)
  | none, none => tpl

/-- Written from the amended claim's words: a `"\n\n"` occurring anywhere
wins, regardless of any earlier `"\r\n\r\n"`; only when no `"\n\n"` occurs is
the first `"\r\n\r\n"` used; whole template when neither occurs. -/
def extractBodyNewlinePriority (tpl : Str) : Str :=
  match findSub ("\n\n".toList) tpl, findSub ("\r\n\r\n".toList) tpl with
  | some p, _ => tpl.drop (p + 2)
  | none, some q => tpl.drop (q + 4)
  | none, none => tpl

/-- Claim C1, counterexample: on `"a\r\n\r\nb\n\nc"` the `"\r\n\r\n"` sits at
offset 1 and the `"\n\n"` only at offset 6, yet the code splits at the
`"\n\n"` and returns `"c"`, not the `"b\n\nc"` that the lowest-offset rule of
the claim demands. -/
theorem extract_body_not_lowest_offset :
    extract_body_from_template ("a\r\n\r\nb\n\nc".toList) = "c".toList ∧
    extractBodyLowestOffset ("a\r\n\r\nb\n\nc".toList) = "b\n\nc".toList ∧
    extract_body_from_template ("a\r\n\r\nb\n\nc".toList) ≠
      extractBodyLowestOffset ("a\r\n\r\nb\n\nc".toList) := by
  refine ⟨by decide, by decide, by decide⟩

/-- Claim C1 as amended: for every template, `extract_body_from_template`
splits at the first `"\n\n"` whenever one occurs anywhere in the string (even
when a `"\r\n\r\n"` occurs earlier), otherwise at the first `"\r\n\r\n"`, the
body being the substring strictly after the separator; when neither separator
occurs the whole template is returned unchanged, and the function is total
(never fails). -/
theorem extract_body_newline_priority (tpl : Str) :
    extract_body_from_template tpl = extractBodyNewlinePriority tpl := by
  unfold extract_body_from_template extractBodyNewlinePriority
  cases h1 : findSub ("\n\n".toList) tpl <;>
    cases h2 : findSub ("\r\n\r\n".toList) tpl <;> simp

/-- One entry of a parsed address field (`mail_parser::Addr`): optional
display name, optional email address. -/
structure Addr where
  name : Option Str
  address : Option Str
deriving DecidableEq

/-- One named group of a parsed address field (`mail_parser::Group`; named
`AddrGroup` here because `Group` is taken by the ambient library). -/
structure AddrGroup where
  name : Option Str
  addresses : List Addr
deriving DecidableEq

/-- A parsed address field (`mail_parser::Address`): either a flat list of
entries or a list of named groups. -/
inductive Address where
  | List (addrs : List Addr)
  | Group (groups : List AddrGroup)
deriving DecidableEq

/-- Embedding of the flat-entry arm of `format_address` (read.rs lines
198-205): the closure passed to `filter_map`. -/
def renderAddr (a : Addr) : Option Str :=
  match a.name, a.address with
  | some name, some email => some (name ++ " <".toList ++ email ++ ">".toList)
  | none, some email => some email
  | some name, none => some name
  | none, none => none

/-- Embedding of the per-group closure of `format_address` (read.rs lines
212-221): `format!("{}: {};", name, members)` with `members` the addresses of
the group joined by `", "`. -/
def renderGroup (g : AddrGroup) : Str :=
  let name := g.name.getD []
  let members := joinStr (", ".toList) (g.addresses.filterMap (fun a => a.address))
  name ++ ": ".toList ++ members ++ ";".toList

/-- Embedding of `format_address` (read.rs lines 193-226). -/
def format_address (addr : Address) : Str :=
  match addr with
  | .List addrs => joinStr (", ".toList) (addrs.filterMap renderAddr)
  | .Group groups => joinStr (" ".toList) (groups.map renderGroup)

/-- Written from the claim C3's words, flat entries: `"Name <address>"` when
both are present, just the address when only it is present, just the name
when only it is present, dropped when neither is present. -/
def specRenderEntry (a : Addr) : Option Str :=
  match a.name, a.address with
  | some n, some ad => some (n ++ (' ' :: '<' :: ad) ++ ['>'])
  | none, some ad => some ad
  | some n, none => some n
  | none, none => none

/-- Written from the claim C3's words, one group: `"GroupName: member1,
member2;"`, the group name defaulting to the empty string and the members
being the addresses only (member names ignored). -/
def specRenderGroup (g : AddrGroup) : Str :=
  (match g.name with | some n => n | none => []) ++ (':' :: ' ' :: []) ++
    joinStr (',' :: ' ' :: []) (g.addresses.filterMap Addr.address) ++ [';']

/-- Written from the claim C3's words: surviving flat entries joined by
`", "`; groups joined by a single space. -/
def formatAddressSpec (addr : Address) : Str :=
  match addr with
  | .List addrs => joinStr (',' :: ' ' :: []) (addrs.filterMap specRenderEntry)
  | .Group groups => joinStr (' ' :: []) (groups.map specRenderGroup)

theorem renderAddr_eq_spec (a : Addr) : renderAddr a = specRenderEntry a := by
  cases a with
  | mk n ad => cases n <;> cases ad <;> simp [renderAddr, specRenderEntry]

theorem renderGroup_eq_spec (g : AddrGroup) : renderGroup g = specRenderGroup g := by
  cases g with
  | mk n addrs => cases n <;> simp [renderGroup, specRenderGroup, Option.getD]

/-- Claim C3: `format_address` coincides with the reference definition read
off the spec, on flat lists (per-entry rendering, empty entries dropped,
survivors joined by `", "`) as well as on grouped lists (per-group rendering
with address-only members, groups joined by a single space). -/
theorem format_address_eq_spec (addr : Address) :
    format_address addr = formatAddressSpec addr := by
  cases addr with
  | List addrs =>
    have h : addrs.filterMap renderAddr = addrs.filterMap specRenderEntry :=
      List.filterMap_congr (fun a _ => renderAddr_eq_spec a)
    simp only [format_address, formatAddressSpec, h]
    rfl
  | Group groups =>
    have h : groups.map renderGroup = groups.map specRenderGroup :=
      List.map_congr_left (fun g _ => renderGroup_eq_spec g)
    simp only [format_address, formatAddressSpec, h]
    rfl

/-- Claim C10: a grouped address field never drops a group: the rendering is
the space-join of one rendered string per group (the count of joined pieces
equals the count of groups), and a group none of whose members carries an
address — in particular one with an empty member list — still renders as
`"GroupName: ;"`, the name falling back to the empty string. -/
theorem format_address_keeps_empty_groups (groups : List AddrGroup) :
    format_address (Address.Group groups) =
      joinStr (" ".toList) (groups.map renderGroup) ∧
    (groups.map renderGroup).length = groups.length ∧
    ∀ g ∈ groups, (∀ a ∈ g.addresses, a.address = none) →
      renderGroup g = (g.name.getD []) ++ ": ;".toList := by
  refine ⟨rfl, groups.length_map renderGroup, ?_⟩
  intro g _ hnone
  have hfm : g.addresses.filterMap (fun a => a.address) = [] := by
    rw [List.filterMap_eq_nil_iff]
    intro a ha
    simp [hnone a ha]
  simp [renderGroup, hfm, joinStr]

/-- Witness for the claim C10's theorem: the group with absent name and no
members renders as `": ;"` and is the sole piece of the rendered field. -/
theorem format_address_keeps_empty_groups_witness :
    format_address (Address.Group [AddrGroup.mk none []]) =
      joinStr (" ".toList) ([AddrGroup.mk none []].map renderGroup) ∧
    renderGroup (AddrGroup.mk none []) = ": ;".toList :=
  ⟨(format_address_keeps_empty_groups [AddrGroup.mk none []]).1,
   (format_address_keeps_empty_groups [AddrGroup.mk none []]).2.2
     (AddrGroup.mk none []) (by simp) (by simp)⟩

/-- Account configuration, resolved externally (opaque to this unit). -/
structure AccountConfig where
  name : Str
deriving DecidableEq

/-- A parsed date value; only its RFC3339 rendering is observed by the code
(`d.to_rfc3339()`). -/
structure DateTime where
  to_rfc3339 : Str
deriving DecidableEq

/-- The parsed MIME object (`mail_parser::Message`), restricted to the
accessors the code calls: `from`, `to`, `cc`, `bcc` (address fields),
`subject`, `date`, `message_id`, and `in_reply_to().as_text_list()`. `from`
is a Lean keyword, hence the field name `from_`. -/
structure ParsedMime where
  from_ : Option Address
  to_ : Option Address
  cc : Option Address
  bcc : Option Address
  subject : Option Str
  date : Option DateTime
  message_id : Option Str
  in_reply_to_text_list : Option (List Str)

/-- Error of account/config resolution. -/
structure ConfigError where
  msg : Str
deriving DecidableEq

/-- Error of backend construction. -/
structure BuildError where
  msg : Str
deriving DecidableEq

/-- Error of the batch fetch (network, auth, missing folder/ids). -/
structure FetchError where
  msg : Str
deriving DecidableEq

/-- Error of template rendering for one message. -/
structure RenderError where
  msg : Str
deriving DecidableEq

/-- Error of MIME parsing for one message. -/
structure ParseError where
  msg : Str
deriving DecidableEq

/-- The unified error type of `execute` (Rust `color_eyre::Result`, fed by
the `?` operator), tagged by the failing step. -/
inductive Err where
  | config (e : ConfigError)
  | build (e : BuildError)
  | fetch (e : FetchError)
  | render (e : RenderError)
deriving DecidableEq

/-- Embedding of `MessageHeaders` (read.rs lines 31-49). -/
structure MessageHeaders where
  from_ : Option Str
  to_ : Option Str
  cc : Option Str
  bcc : Option Str
  subject : Option Str
  date : Option Str
  message_id : Option Str
  in_reply_to : Option Str
deriving DecidableEq

/-- Embedding of `MessageHeaders::default()`: all eight fields absent. -/
def MessageHeaders.default : MessageHeaders :=
  { from_ := none, to_ := none, cc := none, bcc := none,
    subject := none, date := none, message_id := none, in_reply_to := none }

/-- Embedding of `StructuredMessage` (read.rs lines 20-28). -/
structure StructuredMessage where
  id : Str
  headers : MessageHeaders
  body : Str
deriving DecidableEq

/-- Embedding of `StructuredMessages` (read.rs line 53). -/
structure StructuredMessages where
  msgs : List StructuredMessage
deriving DecidableEq

/-- Embedding of the `fmt::Display` loop for `StructuredMessages` (read.rs
lines 55-65): write the current glue, then the body, then set the glue to
`"\n\n"` for the next message. -/
def displayAux : Str → List StructuredMessage → Str
  | _, [] => []
  | glue, m :: ms => glue ++ m.body ++ displayAux ("\n\n".toList) ms

/-- The rendered display text of a collection: the loop started with an
empty glue. -/
def StructuredMessages.display (sm : StructuredMessages) : Str :=
  displayAux [] sm.msgs

/-- The template-option policy chosen by the closure at read.rs lines
146-154: hide all headers, show only the listed ones, or the configured
default. -/
inductive TplPolicy where
  | default
  | hideAll
  | showOnly (hs : List Str)
deriving DecidableEq

/-- Embedding of the closure at read.rs lines 146-154: `no_headers` selects
`with_hide_all_headers`, otherwise a non-empty `headers` list selects
`with_show_only_headers`, otherwise the template is left as configured. -/
def policyOf (no_headers : Bool) (headers : List Str) : TplPolicy :=
  if no_headers then .hideAll
  else if headers ≠ [] then .showOnly headers
  else .default

/-- A fetched message: the external template-rendering capability
(`to_read_tpl`, under an account config and the policy chosen by the
closure) and the external MIME-parsing capability (`parsed`). -/
structure Email where
  to_read_tpl : AccountConfig → TplPolicy → Except RenderError Str
  parsed : Except ParseError ParsedMime

/-- Backend-tracked mail state: the set of (folder, envelope id) pairs
carrying the "seen" flag. -/
structure MailState where
  seenIds : List (Str × Str)
deriving DecidableEq

/-- Applying the "seen" flag to every requested id of the folder: the side
effect of `get_messages`. -/
def markSeen (s : MailState) (folder : Str) (ids : List Str) : MailState :=
  { seenIds := s.seenIds ++ ids.map (fun i => (folder, i)) }

/-- The backend's retrieval capability: what it returns for a folder and id
list, possibly depending on the current mail state. -/
structure Backend where
  fetch : MailState → Str → List Str → Except FetchError (List Email)

/-- `peek_messages`: non-mutating retrieval — the mail state is returned
untouched. -/
def Backend.peek_messages (b : Backend) (s : MailState) (folder : Str)
    (ids : List Str) : Except FetchError (List Email × MailState) :=
  match b.fetch s folder ids with
  | .ok emails => .ok (emails, s)
  | .error e => .error e

/-- `get_messages`: mutating retrieval — the "seen" flag is applied to the
requested envelopes. -/
def Backend.get_messages (b : Backend) (s : MailState) (folder : Str)
    (ids : List Str) : Except FetchError (List Email × MailState) :=
  match b.fetch s folder ids with
  | .ok emails => .ok (emails, markSeen s folder ids)
  | .error e => .error e

/-- The external collaborators of `execute`: account/config resolution
(read.rs lines 114-118) and backend construction (lines 122-134). -/
structure Env where
  into_account_configs : Option Str → Except ConfigError AccountConfig
  build_backend : AccountConfig → Except BuildError Backend

/-- The invocation parameters of `MessageReadCommand` (read.rs lines
73-105). -/
structure ReadCmd where
  folder : Str
  ids : List Str
  preview : Bool
  no_headers : Bool
  headers : List Str
  account : Option Str

/-- Model of Rust `usize::to_string`. -/
def natToStr (n : Nat) : Str := (Nat.repr n).toList

/-- Embedding of the id assignment at read.rs line 179:
`ids.get(idx).map(to_string).unwrap_or_else(|| idx.to_string())`. -/
def assignId (ids : List Str) (idx : Nat) : Str :=
  (ids.get? idx).getD (natToStr idx)

/-- Embedding of the header extraction at read.rs lines 158-173: on a parse
success, the eight fields are projected from the parsed object, address
fields through `format_address`, the date through `to_rfc3339`, and
`in_reply_to` as the first text-list entry; on a parse failure, the default
record. -/
def projectHeaders (parsed : Except ParseError ParsedMime) : MessageHeaders :=
  match parsed with
  | .ok p =>
    { from_ := p.from_.map format_address,
      to_ := p.to_.map format_address,
      cc := p.cc.map format_address,
      bcc := p.bcc.map format_address,
      subject := p.subject,
      date := p.date.map DateTime.to_rfc3339,
      message_id := p.message_id,
      in_reply_to := p.in_reply_to_text_list.bind (fun l => l.head?) }
  | .error _ => MessageHeaders.default

/-- One iteration of the loop at read.rs lines 144-186: render the template
(a failure aborts, via `?`), project the headers from the parse result,
extract the body from the template, and assign the id. -/
def processEmail (cfg : AccountConfig) (pol : TplPolicy) (ids : List Str)
    (idx : Nat) (email : Email) : Except RenderError StructuredMessage :=
  match email.to_read_tpl cfg pol with
  | .error e => .error e
  | .ok tpl =>
    .ok { id := assignId ids idx,
          headers := projectHeaders email.parsed,
          body := extract_body_from_template tpl }

/-- The loop at read.rs lines 144-186 over the fetched messages, carrying
the positional index. -/
def processEmails (cfg : AccountConfig) (pol : TplPolicy) (ids : List Str) :
    List Email → Nat → Except RenderError (List StructuredMessage)
  | [], _ => .ok []
  | email :: rest, idx =>
    match processEmail cfg pol ids idx email with
    | .error e => .error e
    | .ok m =>
      match processEmails cfg pol ids rest (idx + 1) with
      | .error e => .error e
      | .ok ms => .ok (m :: ms)

/-- Embedding of `MessageReadCommand::execute` (read.rs lines 108-189):
resolve the account config, build the backend, fetch the batch through peek
(`preview`) or get (otherwise), process each fetched message in order, and
output the collection. Each `match` on an error mirrors a `?`. -/
def execute (env : Env) (cmd : ReadCmd) (s : MailState) :
    Except Err (StructuredMessages × MailState) :=
  match env.into_account_configs cmd.account with
  | .error e => .error (Err.config e)
  | .ok account_config =>
    match env.build_backend account_config with
    | .error e => .error (Err.build e)
    | .ok backend =>
      match (if cmd.preview then
               backend.peek_messages s cmd.folder cmd.ids
             else
               backend.get_messages s cmd.folder cmd.ids) with
      | .error e => .error (Err.fetch e)
      | .ok (emails, s1) =>
        match processEmails account_config (policyOf cmd.no_headers cmd.headers)
                cmd.ids emails 0 with
        | .error e => .error (Err.render e)
        | .ok msgs => .ok (StructuredMessages.mk msgs, s1)

theorem assignId_of_lt (ids : List Str) (i : Nat) (h2 : i < ids.length) :
    assignId ids i = ids.get ⟨i, h2⟩ := by
  unfold assignId
  rw [List.get?_eq_get h2]
  rfl

theorem assignId_of_ge (ids : List Str) (i : Nat) (h2 : ¬ i < ids.length) :
    assignId ids i = natToStr i := by
  unfold assignId
  rw [List.get?_eq_none.mpr (Nat.le_of_not_lt h2)]
  rfl

theorem processEmail_ok_inv (cfg : AccountConfig) (pol : TplPolicy)
    (ids : List Str) (idx : Nat) (email : Email) (m : StructuredMessage)
    (h : processEmail cfg pol ids idx email = .ok m) :
    ∃ tpl, email.to_read_tpl cfg pol = .ok tpl ∧
      m = { id := assignId ids idx,
            headers := projectHeaders email.parsed,
            body := extract_body_from_template tpl } := by
  unfold processEmail at h
  cases ht : email.to_read_tpl cfg pol with
  | error e => rw [ht] at h; simp at h
  | ok tpl =>
    rw [ht] at h
    simp only [Except.ok.injEq] at h
    exact ⟨tpl, rfl, h.symm⟩

theorem processEmails_ok_spec (cfg : AccountConfig) (pol : TplPolicy)
    (ids : List Str) (emails : List Email) :
    ∀ (k : Nat) (msgs : List StructuredMessage),
      processEmails cfg pol ids emails k = .ok msgs →
      msgs.length = emails.length ∧
      ∀ i (hi : i < msgs.length),
        (msgs.get ⟨i, hi⟩).id = assignId ids (k + i) := by
  induction emails with
  | nil =>
    intro k msgs h
    simp only [processEmails, Except.ok.injEq] at h
    subst h
    exact ⟨rfl, fun i hi => absurd hi (by simp)⟩
  | cons email rest ih =>
    intro k msgs h
    simp only [processEmails] at h
    cases he : processEmail cfg pol ids k email with
    | error e => rw [he] at h; simp at h
    | ok m =>
      rw [he] at h
      cases hr : processEmails cfg pol ids rest (k + 1) with
      | error e => rw [hr] at h; simp at h
      | ok ms =>
        rw [hr] at h
        simp only [Except.ok.injEq] at h
        subst h
        obtain ⟨ihlen, ihid⟩ := ih (k + 1) ms hr
        refine ⟨by simp [ihlen], ?_⟩
        intro i hi
        cases i with
        | zero =>
          obtain ⟨tpl, _, hm⟩ := processEmail_ok_inv cfg pol ids k email m he
          subst hm
          simp [List.get]
        | succ j =>
          have hj : j < ms.length := by simpa using hi
          have hid := ihid j hj
          have harith : k + 1 + j = k + (j + 1) := by omega
          rw [harith] at hid
          simpa [List.get] using hid

theorem fetch_branch_eq (b : Backend) (s : MailState) (cmd : ReadCmd) :
    (if cmd.preview then b.peek_messages s cmd.folder cmd.ids
     else b.get_messages s cmd.folder cmd.ids) =
    match b.fetch s cmd.folder cmd.ids with
    | .ok emails =>
      .ok (emails, if cmd.preview then s else markSeen s cmd.folder cmd.ids)
    | .error e => .error e := by
  cases hp : cmd.preview <;>
    cases hfr : b.fetch s cmd.folder cmd.ids <;>
    simp [Backend.peek_messages, Backend.get_messages, hfr]

theorem execute_ok_inv (env : Env) (cmd : ReadCmd) (s : MailState)
    (out : StructuredMessages) (s2 : MailState)
    (h : execute env cmd s = .ok (out, s2)) :
    ∃ cfg b emails,
      env.into_account_configs cmd.account = .ok cfg ∧
      env.build_backend cfg = .ok b ∧
      b.fetch s cmd.folder cmd.ids = .ok emails ∧
      processEmails cfg (policyOf cmd.no_headers cmd.headers) cmd.ids emails 0 =
        .ok out.msgs ∧
      s2 = (if cmd.preview then s else markSeen s cmd.folder cmd.ids) := by
  unfold execute at h
  cases hc : env.into_account_configs cmd.account with
  | error e => rw [hc] at h; simp at h
  | ok cfg =>
  rw [hc] at h
  dsimp only at h
  cases hb : env.build_backend cfg with
  | error e => rw [hb] at h; simp at h
  | ok b =>
  rw [hb] at h
  dsimp only at h
  rw [fetch_branch_eq] at h
  cases hf : b.fetch s cmd.folder cmd.ids with
  | error e => rw [hf] at h; simp at h
  | ok emails =>
  rw [hf] at h
  dsimp only at h
  cases hm : processEmails cfg (policyOf cmd.no_headers cmd.headers)
      cmd.ids emails 0 with
  | error e => rw [hm] at h; simp at h
  | ok msgs =>
  rw [hm] at h
  dsimp only at h
  simp only [Except.ok.injEq, Prod.mk.injEq] at h
  obtain ⟨h1, h2⟩ := h
  exact ⟨cfg, b, emails, rfl, hb, hf, by rw [← h1, hm], h2.symm⟩

theorem processEmails_error_of_render (cfg : AccountConfig) (pol : TplPolicy)
    (ids : List Str) :
    ∀ (emails : List Email) (k : Nat),
      (∃ em ∈ emails, ∃ e, em.to_read_tpl cfg pol = .error e) →
      ∃ e, processEmails cfg pol ids emails k = .error e := by
  intro emails
  induction emails with
  | nil => intro k hfail; simp at hfail
  | cons email rest ih =>
    intro k hfail
    cases ht : email.to_read_tpl cfg pol with
    | error e2 => exact ⟨e2, by simp only [processEmails, processEmail, ht]⟩
    | ok tpl =>
      obtain ⟨em, hmem, e, he⟩ := hfail
      rcases List.mem_cons.mp hmem with h1 | h1
      · subst h1
        rw [ht] at he
        simp at he
      · obtain ⟨e3, hrec⟩ := ih (k + 1) ⟨em, h1, e, he⟩
        exact ⟨e3, by simp only [processEmails, processEmail, ht, hrec]⟩

theorem processEmails_ok_of_renders (cfg : AccountConfig) (pol : TplPolicy)
    (ids : List Str) :
    ∀ (emails : List Email) (k : Nat),
      (∀ em ∈ emails, ∃ tpl, em.to_read_tpl cfg pol = .ok tpl) →
      ∃ msgs, processEmails cfg pol ids emails k = .ok msgs := by
  intro emails
  induction emails with
  | nil => exact fun k _ => ⟨[], rfl⟩
  | cons email rest ih =>
    intro k hall
    obtain ⟨tpl, ht⟩ := hall email (by simp)
    obtain ⟨ms, hrec⟩ := ih (k + 1) (fun em hm => hall em (by simp [hm]))
    exact ⟨{ id := assignId ids k,
             headers := projectHeaders email.parsed,
             body := extract_body_from_template tpl } :: ms,
           by simp only [processEmails, processEmail, ht, hrec]⟩

/-- Claim C2: on a successful run over a non-empty id list, the output
collection holds exactly one structured record per fetched message, and the
records carry the input envelope ids in input order — position `i` of the
output carries id `ids[i]` — whatever list of messages the backend returned. -/
theorem execute_order_matches_input_ids (env : Env) (cmd : ReadCmd)
    (s : MailState) (out : StructuredMessages) (s2 : MailState)
    (hne : cmd.ids ≠ [])
    (h : execute env cmd s = .ok (out, s2))
    (cfg : AccountConfig) (b : Backend) (emails : List Email)
    (hc : env.into_account_configs cmd.account = .ok cfg)
    (hb : env.build_backend cfg = .ok b)
    (hf : b.fetch s cmd.folder cmd.ids = .ok emails) :
    out.msgs.length = emails.length ∧
    ∀ i (hi : i < out.msgs.length) (hi2 : i < cmd.ids.length),
      (out.msgs.get ⟨i, hi⟩).id = cmd.ids.get ⟨i, hi2⟩ := by
  obtain ⟨cfg2, b2, emails2, hc2, hb2, hf2, hm2, hs2⟩ :=
    execute_ok_inv env cmd s out s2 h
  rw [hc] at hc2
  injection hc2 with hcfg
  subst hcfg
  rw [hb] at hb2
  injection hb2 with hbb
  subst hbb
  rw [hf] at hf2
  injection hf2 with hee
  subst hee
  obtain ⟨hlen, hid⟩ := processEmails_ok_spec cfg
    (policyOf cmd.no_headers cmd.headers) cmd.ids emails 0 out.msgs hm2
  refine ⟨hlen, ?_⟩
  intro i hi hi2
  rw [hid i hi]
  simp only [Nat.zero_add]
  exact assignId_of_lt cmd.ids i hi2

/-- Claim C8: on a successful run, the record at position `idx` carries the
input envelope id at `idx` when that position is within the id list, and the
positional index rendered as a string otherwise — in particular the extra
messages of an over-long batch get their positional index as id. -/
theorem execute_id_fallback (env : Env) (cmd : ReadCmd) (s : MailState)
    (out : StructuredMessages) (s2 : MailState)
    (h : execute env cmd s = .ok (out, s2)) :
    ∀ i (hi : i < out.msgs.length),
      (out.msgs.get ⟨i, hi⟩).id =
        if h2 : i < cmd.ids.length then cmd.ids.get ⟨i, h2⟩ else natToStr i := by
  obtain ⟨cfg, b, emails, hc, hb, hf, hm, hs⟩ := execute_ok_inv env cmd s out s2 h
  intro i hi
  rw [(processEmails_ok_spec cfg (policyOf cmd.no_headers cmd.headers)
    cmd.ids emails 0 out.msgs hm).2 i hi]
  simp only [Nat.zero_add]
  by_cases h2 : i < cmd.ids.length
  · rw [dif_pos h2]
    exact assignId_of_lt cmd.ids i h2
  · rw [dif_neg h2]
    exact assignId_of_ge cmd.ids i h2

/-- Claim C4: when MIME parsing of a message fails, its record still gets
built — no abort — with all eight header fields absent, and the body is still
extracted from the rendered template. -/
theorem parse_failure_degrades_headers (cfg : AccountConfig) (pol : TplPolicy)
    (ids : List Str) (idx : Nat) (email : Email) (e : ParseError) (tpl : Str)
    (hp : email.parsed = .error e)
    (ht : email.to_read_tpl cfg pol = .ok tpl) :
    processEmail cfg pol ids idx email =
      .ok { id := assignId ids idx,
            headers := { from_ := none, to_ := none, cc := none, bcc := none,
                         subject := none, date := none, message_id := none,
                         in_reply_to := none },
            body := extract_body_from_template tpl } := by
  simp only [processEmail, ht, projectHeaders, hp]
  rfl

/-- Claim C6: on a successful run, the final mail state is untouched exactly
when `preview` is set (the peek capability was used), and is the input state
with the "seen" flag applied to the requested envelopes otherwise (the get
capability was used) — the sole mutation the pipeline can cause. -/
theorem seen_mutation_iff_preview_off (env : Env) (cmd : ReadCmd)
    (s : MailState) (out : StructuredMessages) (s2 : MailState)
    (h : execute env cmd s = .ok (out, s2)) :
    s2 = (if cmd.preview then s else markSeen s cmd.folder cmd.ids) := by
  obtain ⟨_, _, _, _, _, _, _, hs⟩ := execute_ok_inv env cmd s out s2 h
  exact hs

/-- Claim C9: under `preview`, a successful run leaves the mail state exactly
as it was, and a second run from the resulting state returns the identical
structured output (the pipeline is a pure function of its inputs in this
model, so two runs from identical backend state agree). -/
theorem preview_runs_idempotent (env : Env) (cmd : ReadCmd) (s : MailState)
    (out : StructuredMessages) (s2 : MailState)
    (hp : cmd.preview = true)
    (h : execute env cmd s = .ok (out, s2)) :
    s2 = s ∧ execute env cmd s2 = .ok (out, s2) := by
  obtain ⟨_, _, _, _, _, _, _, hs⟩ := execute_ok_inv env cmd s out s2 h
  rw [hp] at hs
  simp only [if_true] at hs
  subst hs
  exact ⟨rfl, h⟩

theorem displayAux_eq_joinStrAux (ms : List StructuredMessage) :
    displayAux ("\n\n".toList) ms =
      joinStrAux ("\n\n".toList) (ms.map StructuredMessage.body) := by
  induction ms with
  | nil => rfl
  | cons m ms ih => simp only [displayAux, joinStrAux, List.map_cons, ih]

/-- Claim C7: the flattened human-readable rendering of a collection is the
join of the messages' bodies by exactly one blank line — no leading or
trailing separator — and depends on nothing but the bodies, so no header text
ever appears in it, whatever the header visibility policy was. -/
theorem display_joins_bodies (sm : StructuredMessages) :
    sm.display = joinStr ("\n\n".toList) (sm.msgs.map StructuredMessage.body) := by
  cases sm with
  | mk msgs =>
    cases msgs with
    | nil => rfl
    | cons m ms =>
      simp only [StructuredMessages.display, displayAux, joinStr, List.map_cons,
        List.nil_append, displayAux_eq_joinStrAux]

/-- Claim C5: a config resolution failure, a batch fetch failure, or a
template rendering failure of any message makes the whole invocation return
that error — no output, no partial collection, no retry — while renders all
succeeding guarantee a successful run whatever the MIME parse outcomes, parse
failure being the only locally absorbed failure. -/
theorem fatal_errors_abort (env : Env) (cmd : ReadCmd) (s : MailState) :
    (∀ e, env.into_account_configs cmd.account = .error e →
       execute env cmd s = .error (Err.config e)) ∧
    (∀ cfg b e, env.into_account_configs cmd.account = .ok cfg →
       env.build_backend cfg = .ok b →
       b.fetch s cmd.folder cmd.ids = .error e →
       execute env cmd s = .error (Err.fetch e)) ∧
    (∀ cfg b emails, env.into_account_configs cmd.account = .ok cfg →
       env.build_backend cfg = .ok b →
       b.fetch s cmd.folder cmd.ids = .ok emails →
       (∃ em ∈ emails, ∃ e,
          em.to_read_tpl cfg (policyOf cmd.no_headers cmd.headers) = .error e) →
       ∃ e, execute env cmd s = .error (Err.render e)) ∧
    (∀ cfg b emails, env.into_account_configs cmd.account = .ok cfg →
       env.build_backend cfg = .ok b →
       b.fetch s cmd.folder cmd.ids = .ok emails →
       (∀ em ∈ emails, ∃ tpl,
          em.to_read_tpl cfg (policyOf cmd.no_headers cmd.headers) = .ok tpl) →
       ∃ r, execute env cmd s = .ok r) := by
  refine ⟨?_, ?_, ?_, ?_⟩
  · intro e he
    simp only [execute, he]
  · intro cfg b e hc hb hfe
    simp only [execute, hc, hb]
    rw [fetch_branch_eq]
    simp only [hfe]
  · intro cfg b emails hc hb hf hfail
    obtain ⟨e, hm⟩ := processEmails_error_of_render cfg
      (policyOf cmd.no_headers cmd.headers) cmd.ids emails 0 hfail
    refine ⟨e, ?_⟩
    simp only [execute, hc, hb]
    rw [fetch_branch_eq]
    simp only [hf, hm]
  · intro cfg b emails hc hb hf hall
    obtain ⟨msgs, hm⟩ := processEmails_ok_of_renders cfg
      (policyOf cmd.no_headers cmd.headers) cmd.ids emails 0 hall
    refine ⟨(StructuredMessages.mk msgs,
             if cmd.preview then s else markSeen s cmd.folder cmd.ids), ?_⟩
    simp only [execute, hc, hb]
    rw [fetch_branch_eq]
    simp only [hf, hm]

/-- Concrete account config used by the witnesses. -/
def wCfg : AccountConfig := ⟨"personal".toList⟩

/-- Concrete message whose render succeeds and whose MIME parse fails. -/
def wEmail : Email :=
  { to_read_tpl := fun _ _ => .ok ("Subject: hi\n\nhello".toList),
    parsed := .error ⟨"bad mime".toList⟩ }

/-- Concrete initial mail state with no seen flags. -/
def wS : MailState := ⟨[]⟩

/-- The structured record produced from `wEmail` under id `i`. -/
def wMsg (i : Str) : StructuredMessage :=
  { id := i, headers := MessageHeaders.default, body := "hello".toList }

/-- Backend returning three copies of `wEmail`. -/
def wBackend3 : Backend := ⟨fun _ _ _ => .ok [wEmail, wEmail, wEmail]⟩

/-- Environment resolving to `wCfg` and `wBackend3`. -/
def wEnv3 : Env :=
  { into_account_configs := fun _ => .ok wCfg,
    build_backend := fun _ => .ok wBackend3 }

/-- Command reading envelope ids 2, 5, 1 under preview. -/
def wCmd3 : ReadCmd :=
  { folder := "INBOX".toList,
    ids := ["2".toList, "5".toList, "1".toList],
    preview := true, no_headers := false, headers := [], account := none }

/-- The output collection of `execute wEnv3 wCmd3 wS`. -/
def wOut3 : StructuredMessages :=
  ⟨[wMsg ("2".toList), wMsg ("5".toList), wMsg ("1".toList)]⟩

/-- Witness for the claim C2's theorem at a concrete three-message run. -/
theorem execute_order_matches_input_ids_witness :
    wOut3.msgs.length = ([wEmail, wEmail, wEmail] : List Email).length ∧
    (wOut3.msgs.get ⟨0, by decide⟩).id = wCmd3.ids.get ⟨0, by decide⟩ := by
  have h := execute_order_matches_input_ids wEnv3 wCmd3 wS wOut3 wS
    (by decide) rfl wCfg wBackend3 [wEmail, wEmail, wEmail] rfl rfl rfl
  exact ⟨h.1, h.2 0 (by decide) (by decide)⟩

/-- Witness for the claim C4's theorem at `wEmail`, whose parse fails. -/
theorem parse_failure_degrades_headers_witness :
    processEmail wCfg TplPolicy.default [] 0 wEmail =
      .ok { id := assignId [] 0,
            headers := { from_ := none, to_ := none, cc := none, bcc := none,
                         subject := none, date := none, message_id := none,
                         in_reply_to := none },
            body := extract_body_from_template ("Subject: hi\n\nhello".toList) } :=
  parse_failure_degrades_headers wCfg TplPolicy.default [] 0 wEmail
    ⟨"bad mime".toList⟩ ("Subject: hi\n\nhello".toList) rfl rfl

/-- Concrete config resolution error. -/
def wCfgErr : ConfigError := ⟨"no account".toList⟩

/-- Concrete batch fetch error. -/
def wFetchErr : FetchError := ⟨"connection refused".toList⟩

/-- Concrete template rendering error. -/
def wRenderErr : RenderError := ⟨"render failed".toList⟩

/-- Environment whose config resolution fails. -/
def wEnvCfgFail : Env :=
  { into_account_configs := fun _ => .error wCfgErr,
    build_backend := fun _ => .ok wBackend3 }

/-- Backend whose fetch fails. -/
def wBackendFetchFail : Backend := ⟨fun _ _ _ => .error wFetchErr⟩

/-- Environment whose backend's fetch fails. -/
def wEnvFetchFail : Env :=
  { into_account_configs := fun _ => .ok wCfg,
    build_backend := fun _ => .ok wBackendFetchFail }

/-- Concrete message whose template rendering fails. -/
def wEmailRenderFail : Email :=
  { to_read_tpl := fun _ _ => .error wRenderErr,
    parsed := .error ⟨"bad mime".toList⟩ }

/-- Backend returning the message whose rendering fails. -/
def wBackendRenderFail : Backend := ⟨fun _ _ _ => .ok [wEmailRenderFail]⟩

/-- Environment whose fetched message fails to render. -/
def wEnvRenderFail : Env :=
  { into_account_configs := fun _ => .ok wCfg,
    build_backend := fun _ => .ok wBackendRenderFail }

/-- Witness for the claim C5's theorem: a failing config resolution, a
failing fetch and a failing render each abort the whole run with that error,
while all-successful renders yield output despite every parse failing. -/
theorem fatal_errors_abort_witness :
    execute wEnvCfgFail wCmd3 wS = .error (Err.config wCfgErr) ∧
    execute wEnvFetchFail wCmd3 wS = .error (Err.fetch wFetchErr) ∧
    (∃ e, execute wEnvRenderFail wCmd3 wS = .error (Err.render e)) ∧
    (∃ r, execute wEnv3 wCmd3 wS = .ok r) := by
  refine ⟨(fatal_errors_abort wEnvCfgFail wCmd3 wS).1 wCfgErr rfl,
          (fatal_errors_abort wEnvFetchFail wCmd3 wS).2.1 wCfg wBackendFetchFail
            wFetchErr rfl rfl rfl,
          (fatal_errors_abort wEnvRenderFail wCmd3 wS).2.2.1 wCfg
            wBackendRenderFail [wEmailRenderFail] rfl rfl rfl
            ⟨wEmailRenderFail, by simp, wRenderErr, rfl⟩,
          (fatal_errors_abort wEnv3 wCmd3 wS).2.2.2 wCfg wBackend3
            [wEmail, wEmail, wEmail] rfl rfl rfl ?_⟩
  intro em hm
  have hw : em = wEmail := by
    simp only [List.mem_cons, List.not_mem_nil, or_false] at hm
    rcases hm with h1 | h1 | h1 <;> exact h1
  subst hw
  exact ⟨_, rfl⟩

/-- Command reading envelope ids 2, 5, 1 without preview. -/
def wCmdGet : ReadCmd :=
  { folder := "INBOX".toList,
    ids := ["2".toList, "5".toList, "1".toList],
    preview := false, no_headers := false, headers := [], account := none }

/-- Witness for the claim C6's theorem: under preview the state comes back
untouched; without preview it comes back with the seen flags applied. -/
theorem seen_mutation_iff_preview_off_witness :
    wS = (if wCmd3.preview then wS else markSeen wS wCmd3.folder wCmd3.ids) ∧
    markSeen wS wCmdGet.folder wCmdGet.ids =
      (if wCmdGet.preview then wS else markSeen wS wCmdGet.folder wCmdGet.ids) :=
  ⟨seen_mutation_iff_preview_off wEnv3 wCmd3 wS wOut3 wS rfl,
   seen_mutation_iff_preview_off wEnv3 wCmdGet wS wOut3
     (markSeen wS wCmdGet.folder wCmdGet.ids) rfl⟩

/-- Backend returning two copies of `wEmail` (one more than requested). -/
def wBackend2 : Backend := ⟨fun _ _ _ => .ok [wEmail, wEmail]⟩

/-- Environment resolving to `wCfg` and `wBackend2`. -/
def wEnv2 : Env :=
  { into_account_configs := fun _ => .ok wCfg,
    build_backend := fun _ => .ok wBackend2 }

/-- Command requesting the single envelope id 7. -/
def wCmd1 : ReadCmd :=
  { folder := "INBOX".toList,
    ids := ["7".toList],
    preview := true, no_headers := false, headers := [], account := none }

/-- The output collection of `execute wEnv2 wCmd1 wS`: the extra second
message gets its positional index as id. -/
def wOut2 : StructuredMessages := ⟨[wMsg ("7".toList), wMsg (natToStr 1)]⟩

/-- Witness for the claim C8's theorem: with one requested id and two fetched
messages, the second record's id is the positional index rendered as a
string. -/
theorem execute_id_fallback_witness :
    (wOut2.msgs.get ⟨1, by decide⟩).id = natToStr 1 := by
  have h := execute_id_fallback wEnv2 wCmd1 wS wOut2 wS rfl 1 (by decide)
  rw [dif_neg (by decide)] at h
  exact h

/-- Witness for the claim C9's theorem at the concrete preview run. -/
theorem preview_runs_idempotent_witness :
    wS = wS ∧ execute wEnv3 wCmd3 wS = .ok (wOut3, wS) :=
  preview_runs_idempotent wEnv3 wCmd3 wS wOut3 wS rfl rfl
